import Mathlib

/-
Verification development for the scrape_news ingestion-and-enrichment
pipeline.  Python floats are modelled as exact rationals (ℚ); texts are
Lean `String`s.  Each definition is a shallow embedding of the function
named in its doc comment.
-/

namespace ScrapeNews

/-! ### Keyword lexicons (src/sentiment/analyzer.py, module constants) -/

/-- POSITIVE_KEYWORDS from src/sentiment/analyzer.py. -/
def POSITIVE_KEYWORDS : List String :=
  ["melesat", "terbang", "cuan", "laba", "untung", "naik", "menguat",
   "bullish", "dividen", "akuisisi", "ekspansi", "rekor", "tumbuh",
   "positif", "optimis", "hijau", "buy", "meningkat", "profit"]

/-- NEGATIVE_KEYWORDS from src/sentiment/analyzer.py. -/
def NEGATIVE_KEYWORDS : List String :=
  ["anjlok", "terjun", "rugi", "boncos", "turun", "melemah",
   "bearish", "bangkrut", "pailit", "utang", "koreksi", "negatif",
   "pesimis", "merah", "sell", "gagal", "anjlog", "longsor", "merosot"]

/-- Python `str.lower()` (ASCII case folding, character by character). -/
def strLower (s : String) : String := String.mk (s.toList.map Char.toLower)

/-- Bool test that the first list of characters starts the second. -/
def charsLeadWith : List Char → List Char → Bool
  | [], _ => true
  | _ :: _, [] => false
  | a :: as, b :: bs => a == b && charsLeadWith as bs

/-- Python substring containment `needle in hay` for strings. -/
def containsSub (needle hay : String) : Bool :=
  (List.range (hay.toList.length + 1)).any
    (fun i => charsLeadWith needle.toList (hay.toList.drop i))

/-- `pos_count` of `SentimentAnalyzer._apply_keyword_heuristics`:
number of positive lexicon words occurring in the lowered text. -/
def pos_keyword_count (text : String) : Nat :=
  (POSITIVE_KEYWORDS.filter (fun w => containsSub w (strLower text))).length

/-- `neg_count` of `SentimentAnalyzer._apply_keyword_heuristics`. -/
def neg_keyword_count (text : String) : Nat :=
  (NEGATIVE_KEYWORDS.filter (fun w => containsSub w (strLower text))).length

/-- `net_keywords = pos_count - neg_count` (Python int subtraction). -/
def net_keywords (text : String) : Int :=
  (pos_keyword_count text : Int) - (neg_keyword_count text : Int)

/-- `adjustment = max(min(net_keywords * 0.05, 0.3), -0.3)`. -/
def keyword_adjustment (text : String) : ℚ :=
  max (min ((net_keywords text : ℚ) * (1/20)) (3/10)) (-(3/10))

/-- `SentimentAnalyzer._apply_keyword_heuristics` (src/sentiment/analyzer.py,
lines 159-189): blend the keyword adjustment into the raw model score and
clamp the result to [-1, 1]. -/
def apply_keyword_heuristics (text : String) (score : ℚ) : ℚ :=
  let adjustment := keyword_adjustment text
  let s :=
    if -(1/5) < score ∧ score < 1/5 then
      if 2 ≤ (net_keywords text).natAbs then
        score + adjustment * (3/2)
      else
        score + adjustment
    else
      score + adjustment * (1/2)
  max (min s 1) (-1)

/-- `SentimentAnalyzer._get_label_from_score` (threshold 0.15). -/
def get_label_from_score (score : ℚ) : String :=
  if score > 3/20 then "positive"
  else if score < -(3/20) then "negative"
  else "neutral"

/-! ### C1: the weighting rule as the claim words it, and as amended -/

/-- The keyword-heuristic weighting exactly as the claim states it: 1.5×
weight when the raw score is strictly inside (-0.2, 0.2) and |net| ≥ 2,
and 0.5× weight in every other case (result clamped to [-1, 1]). -/
def claimed_keyword_heuristics (text : String) (score : ℚ) : ℚ :=
  let adjustment := keyword_adjustment text
  let s :=
    if (-(1/5) < score ∧ score < 1/5) ∧ 2 ≤ (net_keywords text).natAbs then
      score + adjustment * (3/2)
    else
      score + adjustment * (1/2)
  max (min s 1) (-1)

/-- The amended weighting rule: 1.5× when near zero with |net| ≥ 2, full
1.0× when near zero with |net| < 2, and 0.5× otherwise, then clamp. -/
def amended_keyword_heuristics (text : String) (score : ℚ) : ℚ :=
  let adjustment := keyword_adjustment text
  let weight : ℚ :=
    if -(1/5) < score ∧ score < 1/5 then
      if 2 ≤ (net_keywords text).natAbs then 3/2 else 1
    else 1/2
  max (min (score + adjustment * weight) 1) (-1)

/-- C1 counterexample: on the text "naik" (one positive hit, net = 1) with
raw score 0, the code applies the full adjustment (result 1/20) while the
claim's uniform 0.5× rule would give 1/40. -/
theorem C1_counterexample :
    apply_keyword_heuristics "naik" 0 ≠ claimed_keyword_heuristics "naik" 0 := by
  have hnet : net_keywords "naik" = 1 := by decide
  simp only [apply_keyword_heuristics, claimed_keyword_heuristics,
    keyword_adjustment, hnet]
  norm_num [min_def, max_def]

/-- C1 (amended): for every text and raw score, the keyword-heuristic blend
equals the three-case rule: adjustment = clamp(net*0.05, -0.3, 0.3), applied
at 1.5× weight when the raw score lies strictly within (-0.2, 0.2) and
|net| ≥ 2, at 1.0× weight when the raw score lies within that band but
|net| < 2, and at 0.5× weight otherwise, the result clamped to [-1, 1]. -/
theorem C1_keyword_weighting_amended (text : String) (score : ℚ) :
    apply_keyword_heuristics text score = amended_keyword_heuristics text score := by
  unfold apply_keyword_heuristics amended_keyword_heuristics
  split_ifs with h1 h2 <;> ring_nf

/-! ### Sentiment scoring (src/sentiment/analyzer.py) -/

/-- The chunk-averaged 3-way probability vector `avg_probs` produced by the
classifier black box (index 0 = negative, 1 = neutral, 2 = positive). -/
structure ProbDist where
  neg : ℚ
  neu : ℚ
  pos : ℚ
deriving DecidableEq

/-- Result dictionary of `SentimentAnalyzer._analyze_single_with_chunking`. -/
structure SentimentResult where
  sentiment_score : ℚ
  sentiment_label : String
  confidence : ℚ
deriving DecidableEq

/-- Tail of `_analyze_single_with_chunking` after the classifier returned the
averaged probability vector: raw score = P(pos) - P(neg), keyword-heuristic
adjustment, label from adjusted score, confidence = avg_probs[argmax]
(i.e. the largest of the three averaged probabilities). -/
def mk_sentiment_result (p : ProbDist) (text : String) : SentimentResult :=
  let raw := p.pos - p.neg
  let score := apply_keyword_heuristics text raw
  { sentiment_score := score
    sentiment_label := get_label_from_score score
    confidence := max p.neg (max p.neu p.pos) }

/-- `_analyze_single_with_chunking` with a total classifier: empty text
short-circuits to the neutral result, otherwise the classifier consensus
distribution is post-processed by `mk_sentiment_result`. -/
def analyze_single_pure (cls : String → ProbDist) (text : String) : SentimentResult :=
  if text = "" then ⟨0, "neutral", 0⟩
  else mk_sentiment_result (cls text) text

/-- `_analyze_single_with_chunking` with a fallible classifier: an inference
exception propagates out of the call (it is caught only in `analyze_batch`). -/
def analyze_single_E (cls : String → Except String ProbDist) (text : String) :
    Except String SentimentResult :=
  if text = "" then .ok ⟨0, "neutral", 0⟩
  else
    match cls text with
    | .ok p => .ok (mk_sentiment_result p text)
    | .error e => .error e

/-- The neutral fallback dictionary appended by `analyze_batch` on error. -/
def neutral_fallback : SentimentResult :=
  { sentiment_score := 0, sentiment_label := "neutral", confidence := 0 }

/-- `SentimentAnalyzer.analyze_batch` (src/sentiment/analyzer.py, lines
83-102): each text is analyzed in turn; an exception is caught and replaced
by the neutral fallback, and processing continues with the rest. -/
def analyze_batch (cls : String → Except String ProbDist) (texts : List String) :
    List SentimentResult :=
  texts.map (fun t =>
    match analyze_single_E cls t with
    | .ok r => r
    | .error _ => neutral_fallback)

/-- The final clamp of `_apply_keyword_heuristics` keeps every adjusted
score inside [-1, 1], whatever the text and raw score. -/
theorem apply_keyword_heuristics_bounds (text : String) (score : ℚ) :
    -1 ≤ apply_keyword_heuristics text score ∧ apply_keyword_heuristics text score ≤ 1 := by
  unfold apply_keyword_heuristics
  refine ⟨le_max_right _ _, max_le (min_le_right _ _) (by norm_num)⟩

/-- C6: for every input text and every classifier output that is a genuine
probability distribution, the sentiment score lies in [-1, 1] and the
confidence lies in [0, 1]. -/
theorem C6_score_confidence_bounds (cls : String → ProbDist) (text : String)
    (h0 : 0 ≤ (cls text).neg) (h1 : 0 ≤ (cls text).neu) (h2 : 0 ≤ (cls text).pos)
    (hsum : (cls text).neg + (cls text).neu + (cls text).pos = 1) :
    -1 ≤ (analyze_single_pure cls text).sentiment_score
    ∧ (analyze_single_pure cls text).sentiment_score ≤ 1
    ∧ 0 ≤ (analyze_single_pure cls text).confidence
    ∧ (analyze_single_pure cls text).confidence ≤ 1 := by
  unfold analyze_single_pure
  split_ifs with ht
  · norm_num
  · refine ⟨(apply_keyword_heuristics_bounds text _).1,
      (apply_keyword_heuristics_bounds text _).2,
      le_trans h0 (le_max_left _ _),
      max_le (by linarith) (max_le (by linarith) (by linarith))⟩

/-- C6 witness: the bounds hold at a concrete classifier and text. -/
theorem C6_score_confidence_bounds_witness :
    ((0:ℚ) ≤ 0 ∧ (0:ℚ) ≤ 1 ∧ (0:ℚ) ≤ 0 ∧ (0:ℚ) + 1 + 0 = 1)
    ∧ (-1 ≤ (analyze_single_pure (fun _ => ⟨0, 1, 0⟩) "a").sentiment_score
       ∧ (analyze_single_pure (fun _ => ⟨0, 1, 0⟩) "a").sentiment_score ≤ 1
       ∧ 0 ≤ (analyze_single_pure (fun _ => ⟨0, 1, 0⟩) "a").confidence
       ∧ (analyze_single_pure (fun _ => ⟨0, 1, 0⟩) "a").confidence ≤ 1) :=
  ⟨⟨by norm_num, by norm_num, by norm_num, by norm_num⟩,
   C6_score_confidence_bounds (fun _ => ⟨0, 1, 0⟩) "a"
     (by norm_num) (by norm_num) (by norm_num) (by norm_num)⟩

/-- C9: batch analysis is length-preserving and per-element: a text on which
the classifier raises yields the neutral fallback entry (score 0, label
neutral, confidence 0) at its position, a text on which analysis succeeds
yields its own result — one failure never disturbs the other entries. -/
theorem C9_batch_fallback (cls : String → Except String ProbDist) (texts : List String) :
    (analyze_batch cls texts).length = texts.length
    ∧ ∀ (i : Nat) (t : String), texts[i]? = some t →
        (∀ e, analyze_single_E cls t = .error e →
          (analyze_batch cls texts)[i]? = some neutral_fallback)
        ∧ (∀ r, analyze_single_E cls t = .ok r →
          (analyze_batch cls texts)[i]? = some r) := by
  constructor
  · simp [analyze_batch]
  · intro i t ht
    constructor
    · intro e he
      simp [analyze_batch, List.getElem?_map, ht, he]
    · intro r hr
      simp [analyze_batch, List.getElem?_map, ht, hr]

/-- C9 witness: a classifier that raises on its single input produces the
neutral fallback at that position. -/
theorem C9_batch_fallback_witness :
    (["a"] : List String)[0]? = some "a"
    ∧ analyze_single_E (fun _ => .error "x") "a" = .error "x"
    ∧ (analyze_batch (fun _ => .error "x") ["a"])[0]? = some neutral_fallback := by
  have he : analyze_single_E (fun _ => .error "x") "a" = .error "x" := by
    simp [analyze_single_E]
  exact ⟨rfl, he,
    ((C9_batch_fallback (fun _ => .error "x") ["a"]).2 0 "a" rfl).1 "x" he⟩

/-! ### Ticker extraction (src/utils/helpers.py) -/

/-- Python regex word character `\w` : alphanumeric or underscore. -/
def isWordChar (c : Char) : Bool := c.isAlphanum || c == '_'

/-- ASCII uppercase letter, the `[A-Z]` character class. -/
def isUpperAZ (c : Char) : Bool := 'A' ≤ c && c ≤ 'Z'

/-- Word boundary `\b` holds before position `i` when `i` is 0 or the
previous character is not a word character. -/
def boundaryBefore (cs : List Char) (i : Nat) : Bool :=
  i == 0 ||
    (match cs[i-1]? with
     | some c => ! isWordChar c
     | none => true)

/-- Word boundary `\b` holds after the match when the character at `i`
is absent (end of text) or not a word character. -/
def boundaryAfter (cs : List Char) (i : Nat) : Bool :=
  match cs[i]? with
  | some c => ! isWordChar c
  | none => true

/-- `re.findall(r'\b[A-Z]{4}\b', text)`: every run of exactly four ASCII
uppercase letters flanked by word boundaries, in order of position.  Matches
of this pattern cannot overlap, so the position scan returns exactly the
findall list. -/
def upperTokens4 (text : String) : List String :=
  let cs := text.toList
  (List.range cs.length).filterMap (fun i =>
    let tok := (cs.drop i).take 4
    if tok.length == 4 && tok.all isUpperAZ
        && boundaryBefore cs i && boundaryAfter cs (i + 4)
    then some (String.mk tok)
    else none)

/-- Core of `extract_stock_tickers` (src/utils/helpers.py, lines 62-67)
once the registry has loaded: candidate generation by pattern scan, then
intersection with the registry key set, then `list(set(...))`. -/
def extract_stock_tickers_core (text : String) (valid_tickers : List String) :
    List String :=
  ((upperTokens4 text).filter (fun t => decide (t ∈ valid_tickers))).dedup

/-- `extract_stock_tickers` (src/utils/helpers.py, lines 45-67) at its
public interface: empty text returns [], a registry load failure
(`load_idx_stocks` raising, modelled as `none`) is caught and returns [],
otherwise the core extraction runs against the loaded registry. -/
def extract_stock_tickers (load : Option (List String)) (text : String) :
    List String :=
  if text = "" then []
  else
    match load with
    | none => []
    | some valid_tickers => extract_stock_tickers_core text valid_tickers

/-- C8: a symbol is returned by the core extraction exactly when it is a
fixed-length uppercase-token candidate of the text and a member of the
registry key set; in particular a symbol absent from the registry is never
returned, for any input text. -/
theorem C8_tickers_in_registry (text : String) (reg : List String) (t : String) :
    t ∈ extract_stock_tickers_core text reg ↔ t ∈ upperTokens4 text ∧ t ∈ reg := by
  simp [extract_stock_tickers_core, List.mem_dedup, List.mem_filter]

/-- C8 witness: the equivalence evaluated at a concrete text and registry. -/
theorem C8_tickers_in_registry_witness :
    "BBCA" ∈ extract_stock_tickers_core "Saham BBCA naik" ["BBCA", "TLKM"] :=
  (C8_tickers_in_registry "Saham BBCA naik" ["BBCA", "TLKM"] "BBCA").mpr
    (by constructor <;> decide)

/-- C10: ticker extraction is total at its public interface — when the
registry fails to load or the input text is empty, the result is the empty
list (no tickers, no exception). -/
theorem C10_extract_total (load : Option (List String)) (text : String)
    (h : load = none ∨ text = "") :
    extract_stock_tickers load text = [] := by
  rcases h with h | h
  · subst h
    unfold extract_stock_tickers
    split_ifs <;> rfl
  · subst h
    rfl

/-- C10 witness: a failed registry load on a nonempty text yields []. -/
theorem C10_extract_total_witness :
    (none : Option (List String)) = none
    ∧ extract_stock_tickers none "Saham BBCA naik" = [] :=
  ⟨rfl, C10_extract_total none "Saham BBCA naik" (Or.inl rfl)⟩

/-! ### C2: the worked example scenario -/

/-- C2 counterexample: on the body text of the scenario the keyword
heuristic counts 3 positive hits ("laba" matches in addition to "melesat"
and "menguat"), not the 2 hits the claim states. -/
theorem C2_counterexample :
    pos_keyword_count "Laba BBCA melesat, saham menguat" = 3
    ∧ pos_keyword_count "Laba BBCA melesat, saham menguat" ≠ 2 := by
  constructor <;> decide

/-- C2 (amended): for the scenario text with BBCA in the registry the
extractor returns exactly ["BBCA"]; the heuristic counts 3 positive hits
(laba, melesat, menguat) and no negative hit, so any near-zero raw score is
raised by 9/40 = 0.225 (hence by at least 0.075), and the resulting label is
positive exactly when the raw score exceeds -0.075. -/
theorem C2_scenario_amended (reg : List String) (s : ℚ)
    (hreg : "BBCA" ∈ reg) (h1 : -(1/5) < s) (h2 : s < 1/5) :
    extract_stock_tickers_core "Laba BBCA melesat, saham menguat" reg = ["BBCA"]
    ∧ pos_keyword_count "Laba BBCA melesat, saham menguat" = 3
    ∧ neg_keyword_count "Laba BBCA melesat, saham menguat" = 0
    ∧ apply_keyword_heuristics "Laba BBCA melesat, saham menguat" s = s + 9/40
    ∧ (3/40 : ℚ) ≤ apply_keyword_heuristics "Laba BBCA melesat, saham menguat" s - s
    ∧ (-(3/40) < s →
        get_label_from_score
          (apply_keyword_heuristics "Laba BBCA melesat, saham menguat" s) = "positive") := by
  have hu : upperTokens4 "Laba BBCA melesat, saham menguat" = ["BBCA"] := by decide
  have hnet : net_keywords "Laba BBCA melesat, saham menguat" = 3 := by decide
  have hadj : keyword_adjustment "Laba BBCA melesat, saham menguat" = 3/20 := by
    rw [keyword_adjustment, hnet]
    norm_num [min_def, max_def]
  have hmain : apply_keyword_heuristics "Laba BBCA melesat, saham menguat" s = s + 9/40 := by
    simp only [apply_keyword_heuristics, hadj, hnet]
    rw [if_pos ⟨h1, h2⟩, if_pos (show 2 ≤ (3 : Int).natAbs by norm_num)]
    rw [show s + 3/20 * (3/2) = s + 9/40 by ring]
    rw [min_eq_left (by linarith), max_eq_left (by linarith)]
  refine ⟨?_, by decide, by decide, hmain, by rw [hmain]; linarith, ?_⟩
  · simp [extract_stock_tickers_core, hu, hreg]
  · intro h3
    rw [hmain]
    unfold get_label_from_score
    rw [if_pos (by linarith)]

/-- C2 witness: the amended scenario at registry ["BBCA"] and raw score 0. -/
theorem C2_scenario_amended_witness :
    ("BBCA" ∈ (["BBCA"] : List String) ∧ -(1/5 : ℚ) < 0 ∧ (0 : ℚ) < 1/5)
    ∧ (extract_stock_tickers_core "Laba BBCA melesat, saham menguat" ["BBCA"] = ["BBCA"]
       ∧ pos_keyword_count "Laba BBCA melesat, saham menguat" = 3
       ∧ neg_keyword_count "Laba BBCA melesat, saham menguat" = 0
       ∧ apply_keyword_heuristics "Laba BBCA melesat, saham menguat" 0 = 0 + 9/40
       ∧ (3/40 : ℚ) ≤ apply_keyword_heuristics "Laba BBCA melesat, saham menguat" 0 - 0
       ∧ (-(3/40 : ℚ) < 0 →
           get_label_from_score
             (apply_keyword_heuristics "Laba BBCA melesat, saham menguat" 0) = "positive")) :=
  ⟨⟨by decide, by norm_num, by norm_num⟩,
   C2_scenario_amended ["BBCA"] 0 (by decide) (by norm_num) (by norm_num)⟩

/-! ### Signal aggregation (src/screening/screener.py)

The `signal_strength` field (|avg| · 1/(1+std)) involves a real square
root and is used by no claim here, so the embedded signal record carries
the fields the claims speak about: type, mean sentiment, article count. -/

/-- A ScreeningSignal row as produced by `_generate_stock_signal`. -/
structure ScreeningSignal where
  signal_type : String
  avg_sentiment : ℚ
  article_count : Nat
deriving DecidableEq

/-- Type decision of `StockScreener._calculate_signal` (lines 146-151):
BUY for mean strictly above the threshold, SELL strictly below its
negation, HOLD otherwise. -/
def calc_signal_type (min_sentiment avg_sentiment : ℚ) : String :=
  if avg_sentiment > min_sentiment then "BUY"
  else if avg_sentiment < -min_sentiment then "SELL"
  else "HOLD"

/-- `StockScreener._generate_stock_signal` (lines 73-128) for one stock:
`article_count` recent articles were found, of which `sentiments` carry a
sentiment score; below `min_articles` articles, or with no scored article,
no signal; otherwise the mean is taken, the type computed, and the row is
dropped when |mean| < min_sentiment. -/
def generate_stock_signal (min_sentiment : ℚ) (min_articles : Nat)
    (article_count : Nat) (sentiments : List ℚ) : Option ScreeningSignal :=
  if article_count < min_articles then none
  else if sentiments.length = 0 then none
  else
    let avg_sentiment := sentiments.sum / (sentiments.length : ℚ)
    let signal_type := calc_signal_type min_sentiment avg_sentiment
    if |avg_sentiment| < min_sentiment then none
    else some ⟨signal_type, avg_sentiment, article_count⟩

/-- C3 counterexample: with threshold 0.3, three qualifying articles whose
scores are all exactly 0.3 give |mean| = threshold, the weak-signal filter
(strict <) lets the row through, and the type boundary (strict >) labels it
HOLD — a HOLD-typed row is emitted. -/
theorem C3_counterexample :
    generate_stock_signal (3/10) 3 3 [3/10, 3/10, 3/10]
      = some ⟨"HOLD", 3/10, 3⟩ := by
  have havg : ([3/10, 3/10, 3/10] : List ℚ).sum / (([3/10, 3/10, 3/10] : List ℚ).length : ℚ)
      = 3/10 := by norm_num [List.sum_cons]
  simp only [generate_stock_signal, calc_signal_type, havg,
    show |(3:ℚ)/10| = 3/10 from abs_of_nonneg (by norm_num)]
  norm_num

/-- C3 (amended): with at least `min_articles` qualifying articles and a
nonempty score list, a signal is emitted if and only if |mean| ≥ threshold;
an emitted row has type HOLD exactly at the boundary |mean| = threshold,
and never when |mean| exceeds it. -/
theorem C3_emission_amended (min_sentiment : ℚ) (min_articles article_count : Nat)
    (sentiments : List ℚ)
    (hcnt : min_articles ≤ article_count) (hne : sentiments ≠ []) :
    ((generate_stock_signal min_sentiment min_articles article_count sentiments).isSome
      ↔ min_sentiment ≤ |sentiments.sum / (sentiments.length : ℚ)|)
    ∧ ∀ sig, generate_stock_signal min_sentiment min_articles article_count sentiments
        = some sig →
        (sig.signal_type = "HOLD"
          ↔ |sentiments.sum / (sentiments.length : ℚ)| = min_sentiment) := by
  have hlen : sentiments.length ≠ 0 := fun h => hne (List.eq_nil_of_length_eq_zero h)
  have hnotlt : ¬ article_count < min_articles := Nat.not_lt.mpr hcnt
  set avg := sentiments.sum / (sentiments.length : ℚ) with havg
  constructor
  · by_cases hth : |avg| < min_sentiment
    · simp [generate_stock_signal, hnotlt, hlen, hth, not_le.mpr hth]
    · simp [generate_stock_signal, hnotlt, hlen, hth, not_lt.mp hth]
  · intro sig hsig
    simp only [generate_stock_signal, if_neg hnotlt, if_neg hlen] at hsig
    by_cases hth : |avg| < min_sentiment
    · simp [← havg, hth] at hsig
    · rw [← havg, if_neg hth] at hsig
      have hsig' := (Option.some_inj.mp hsig).symm
      subst hsig'
      simp only [calc_signal_type]
      constructor
      · intro hty
        by_cases hb : avg > min_sentiment
        · rw [if_pos hb] at hty
          exact absurd hty (by decide)
        · rw [if_neg hb] at hty
          by_cases hs : avg < -min_sentiment
          · rw [if_pos hs] at hty
            exact absurd hty (by decide)
          · push_neg at hb hs
            have h1 : |avg| ≤ min_sentiment := abs_le.mpr ⟨by linarith, hb⟩
            exact le_antisymm h1 (not_lt.mp hth)
      · intro heq
        have h1 : avg ≤ |avg| := le_abs_self avg
        have h2 : -|avg| ≤ avg := neg_abs_le avg
        rw [if_neg (by rw [heq] at h1; exact not_lt.mpr h1),
          if_neg (by rw [heq] at h2; exact not_lt.mpr (by linarith))]

/-- C3 witness: three articles at score 0.4 against threshold 0.3 — the
signal is emitted (|mean| exceeds the threshold) and its type is not HOLD. -/
theorem C3_emission_amended_witness :
    (3 ≤ 3 ∧ ([2/5, 2/5, 2/5] : List ℚ) ≠ [])
    ∧ ((generate_stock_signal (3/10) 3 3 [2/5, 2/5, 2/5]).isSome
        ↔ (3/10 : ℚ) ≤ |([2/5, 2/5, 2/5] : List ℚ).sum / (([2/5, 2/5, 2/5] : List ℚ).length : ℚ)|) :=
  ⟨⟨le_refl 3, by decide⟩,
   (C3_emission_amended (3/10) 3 3 [2/5, 2/5, 2/5] (le_refl 3) (by decide)).1⟩

/-! ### Article assembly (src/scraper/cnbc_scraper.py) -/

/-- The article dictionary built by `CNBCScraper.scrape_article` and stored
as an `Article` row; datetimes are modelled as epoch numbers, and title and
content carry the values after `clean_text` normalization. -/
structure ArticleData where
  url : String
  title : String
  content : String
  author : Option String
  published_date : Option Nat
  scraped_date : Nat
deriving DecidableEq

/-- `CNBCScraper.scrape_article` (lines 103-142) after extraction: with
`published_date` the result of the `_extract_date` cascade (None when every
stage failed), missing title or content rejects the candidate, otherwise
the dictionary is assembled with `published_date` stored as extracted and
`scraped_date` the fetch time — no fallback is applied. -/
def scrape_article_assemble (url title content : String) (author : Option String)
    (published_date : Option Nat) (now : Nat) : Option ArticleData :=
  if title = "" || content = "" then none
  else some { url := url, title := title, content := content, author := author,
              published_date := published_date, scraped_date := now }

/-- C4: evaluating the scraper at a page whose date cascade found nothing —
the candidate is accepted and its stored published timestamp is null, not
the fetch timestamp; the claimed fallback does not exist in the code. -/
theorem C4_null_published_eval :
    (scrape_article_assemble "https://x/a" "Judul" "Isi artikel" none none 12345).map
        ArticleData.published_date = some none
    ∧ (scrape_article_assemble "https://x/a" "Judul" "Isi artikel" none none 12345).map
        ArticleData.published_date ≠ some (some 12345) := by
  constructor <;> decide

/-! ### Idempotent persistence (src/pipeline/data_pipeline.py) -/

/-- A stored article row, keyed by its URL. -/
structure ArticleRec where
  url : String
  title : String
  content : String
deriving DecidableEq

/-- The URL existence check `db.query(Article).filter(Article.url == u)`. -/
def hasUrl (stored : List ArticleRec) (u : String) : Bool :=
  stored.any (fun a => a.url == u)

/-- The candidate loop of `DataPipeline.process_articles` (lines 50-64):
existing URLs are skipped, new ones inserted (visible to later checks of
the same run, as after `db.flush()`), and the new-article count grows. -/
def persistIfNewAux : List ArticleRec → List ArticleRec → Nat → List ArticleRec × Nat
  | stored, [], n => (stored, n)
  | stored, c :: cs, n =>
    if hasUrl stored c.url then persistIfNewAux stored cs n
    else persistIfNewAux (stored ++ [c]) cs (n + 1)

/-- `DataPipeline.process_articles` restricted to its persistence effect:
final stored list and the returned count of newly persisted articles. -/
def persistIfNew (stored cands : List ArticleRec) : List ArticleRec × Nat :=
  persistIfNewAux stored cands 0

/-- Appending a row preserves a positive URL-existence check. -/
theorem hasUrl_append (stored : List ArticleRec) (c : ArticleRec) (u : String)
    (h : hasUrl stored u = true) : hasUrl (stored ++ [c]) u = true := by
  simp only [hasUrl, List.any_append] at h ⊢
  rw [h]
  rfl

/-- The store only grows: a URL present before a run is present after it. -/
theorem persistIfNewAux_mono (cands : List ArticleRec) :
    ∀ (stored : List ArticleRec) (n : Nat) (u : String),
      hasUrl stored u = true → hasUrl (persistIfNewAux stored cands n).1 u = true := by
  induction cands with
  | nil => intro stored n u h; exact h
  | cons c cs ih =>
    intro stored n u h
    unfold persistIfNewAux
    split_ifs with hc
    · exact ih stored n u h
    · exact ih (stored ++ [c]) (n + 1) u (hasUrl_append stored c u h)

/-- After a run, every processed candidate's URL is present in the store. -/
theorem persistIfNewAux_mem (cands : List ArticleRec) :
    ∀ (stored : List ArticleRec) (n : Nat) (c : ArticleRec), c ∈ cands →
      hasUrl (persistIfNewAux stored cands n).1 c.url = true := by
  induction cands with
  | nil => intro stored n c hc; cases hc
  | cons a as ih =>
    intro stored n c hc
    unfold persistIfNewAux
    rcases List.mem_cons.mp hc with rfl | hmem
    · split_ifs with ha
      · exact persistIfNewAux_mono as stored n c.url ha
      · refine persistIfNewAux_mono as (stored ++ [c]) (n + 1) c.url ?_
        simp [hasUrl]
    · split_ifs with ha
      · exact ih stored n c hmem
      · exact ih (stored ++ [a]) (n + 1) c hmem

/-- A run over candidates whose URLs are all already stored changes
nothing and adds no count. -/
theorem persistIfNewAux_stable (cands : List ArticleRec) :
    ∀ (stored : List ArticleRec) (n : Nat),
      (∀ c ∈ cands, hasUrl stored c.url = true) →
      persistIfNewAux stored cands n = (stored, n) := by
  induction cands with
  | nil => intro stored n _; rfl
  | cons a as ih =>
    intro stored n h
    unfold persistIfNewAux
    rw [if_pos (h a (List.mem_cons_self a as))]
    exact ih stored n (fun c hc => h c (List.mem_cons_of_mem a hc))

/-- C7: the URL-keyed check-then-insert of `process_articles` is
idempotent — a second run with the same candidate set leaves the stored
list unchanged and returns a new-item count of 0. -/
theorem C7_persist_idempotent (stored cands : List ArticleRec) :
    persistIfNew (persistIfNew stored cands).1 cands
      = ((persistIfNew stored cands).1, 0) :=
  persistIfNewAux_stable cands (persistIfNew stored cands).1 0
    (fun c hc => persistIfNewAux_mem cands stored 0 c hc)

/-! ### Aspect-based sentiment (src/pipeline/data_pipeline.py, lines 111-137) -/

/-- Python `str.strip()`: drop leading and trailing whitespace. -/
def strTrim (s : String) : String :=
  String.mk (((s.toList.dropWhile Char.isWhitespace).reverse.dropWhile
    Char.isWhitespace).reverse)

/-- A TickerSentiment row (src/database/models.py) as created by
`DataPipeline._analyze_sentiments`. -/
structure TickerSentiment where
  ticker : String
  sentiment_score : ℚ
  sentiment_label : String
  confidence : ℚ
  context_text : String
deriving DecidableEq

/-- Modelled from the spec: `extract_context_for_ticker` is imported by
src/pipeline/data_pipeline.py from src.utils.helpers but its definition is
absent from the repository sources.  Per spec §4.8 the context window
splits the body into sentences, locates a sentence containing the symbol,
and returns the sentences within the given radius around it; when no
sentence contains the symbol the snippet is empty (the caller then falls
back to the article title). -/
def extract_context_for_ticker (body ticker : String) (window_sentences : Nat) :
    String :=
  let sentences := body.splitOn "."
  match sentences.findIdx? (fun s => containsSub ticker s) with
  | none => ""
  | some i =>
    String.intercalate "."
      ((sentences.drop (i - window_sentences)).take
        (i + window_sentences + 1 - (i - window_sentences)))

/-- The per-ticker body of `DataPipeline._analyze_sentiments` (lines
119-136): extract the radius-2 context for the ticker, fall back to the
article title when the snippet is empty, score the chosen context with the
sentiment analyzer, and build the TickerSentiment row (context stored
truncated to 500 characters). -/
def aspect_row (cls : String → ProbDist) (title content t : String) :
    TickerSentiment :=
  let ctx0 := extract_context_for_ticker content t 2
  let ctx := if ctx0 = "" then title else ctx0
  let r := analyze_single_pure cls ctx
  { ticker := t
    sentiment_score := r.sentiment_score
    sentiment_label := r.sentiment_label
    confidence := r.confidence
    context_text := ctx.take 500 }

/-- The ticker loop of `DataPipeline._analyze_sentiments` (lines 112-137):
each entry of the comma-split ticker list is stripped, blanks are skipped,
and one TickerSentiment row is created per remaining ticker. -/
def analyze_ticker_sentiments (cls : String → ProbDist) (title content : String)
    (tickers : List String) : List TickerSentiment :=
  tickers.filterMap (fun t0 =>
    let t := strTrim t0
    if t = "" then none
    else some (aspect_row cls title content t))

/-- C5: for already-stripped, nonempty ticker symbols the engine produces
exactly one row per symbol, in order; each row is the `aspect_row` of its
symbol, i.e. the radius-2 context snippet (falling back to the article
title when no sentence contains the symbol) scored by the sentiment
analyzer; with distinct symbols, exactly one row carries each symbol. -/
theorem C5_aspect_rows (cls : String → ProbDist) (title content : String)
    (tickers : List String)
    (h : ∀ t ∈ tickers, strTrim t = t ∧ t ≠ "") :
    analyze_ticker_sentiments cls title content tickers
        = tickers.map (aspect_row cls title content)
    ∧ (analyze_ticker_sentiments cls title content tickers).map TickerSentiment.ticker
        = tickers
    ∧ (∀ t ∈ tickers, extract_context_for_ticker content t 2 = "" →
        (aspect_row cls title content t).context_text = title.take 500)
    ∧ (tickers.Nodup → ∀ t ∈ tickers,
        ((analyze_ticker_sentiments cls title content tickers).filter
          (fun row => row.ticker == t)).length = 1) := by
  have hmain : analyze_ticker_sentiments cls title content tickers
      = tickers.map (aspect_row cls title content) := by
    induction tickers with
    | nil => rfl
    | cons a as ih =>
      have ha := h a (List.mem_cons_self a as)
      have has : ∀ t ∈ as, strTrim t = t ∧ t ≠ "" :=
        fun t ht => h t (List.mem_cons_of_mem a ht)
      simp only [analyze_ticker_sentiments, List.filterMap_cons, ha.1,
        if_neg ha.2, List.map_cons]
      exact congrArg _ (ih has)
  refine ⟨hmain, ?_, ?_, ?_⟩
  · rw [hmain, List.map_map]
    have hid : (TickerSentiment.ticker ∘ aspect_row cls title content) = id := rfl
    rw [hid, List.map_id]
  · intro t _ hctx
    simp only [aspect_row, hctx]
    rfl
  · intro hnd t ht
    rw [hmain, List.filter_map]
    have hcomp : ((fun row => row.ticker == t) ∘ aspect_row cls title content)
        = (fun x => x == t) := rfl
    rw [hcomp, List.length_map, ← List.countP_eq_length_filter]
    exact List.count_eq_one_of_mem hnd ht

/-- C5 witness: a single well-formed symbol yields exactly its row. -/
theorem C5_aspect_rows_witness :
    (∀ t ∈ (["BBCA"] : List String), strTrim t = t ∧ t ≠ "")
    ∧ (analyze_ticker_sentiments (fun _ => ⟨0, 1, 0⟩) "T" "C" ["BBCA"]).map
        TickerSentiment.ticker = ["BBCA"] :=
  ⟨by decide,
   (C5_aspect_rows (fun _ => ⟨0, 1, 0⟩) "T" "C" ["BBCA"] (by decide)).2.1⟩

end ScrapeNews
